import Mathlib

/-!
Shallow embedding of the cue-list sequencing core of Linux Show Player:
the ordered cue collection, the standby cursor, the go/advance protocol,
the auto-continue chain reaction and the selection-set operations, taken
from `lisp/plugins/list_layout/layout.py` and `lisp/layouts/cue_layout.py`.
Pieces of the repository that these files call but that are outside the
given sources (the list view holding the cursor, the list model, the Cue
entity, the common-superclass helper) are modelled from the specification
and marked as such on their definitions.
-/

namespace Lisp

/-- Closed representative set of cue types; `base` plays the role of the
root class Cue, the others are proper subtypes. -/
inductive CueType
  | base
  | media
  | light
  deriving DecidableEq, Repr

/-- A cue as consumed by this core: an identity and a type tag. -/
structure Cue where
  id : Nat
  type : CueType
  deriving DecidableEq, Repr

/-- One row of the list layout: the model cue together with the view-side
selected flag of the corresponding top-level item. -/
structure Entry where
  cue : Cue
  selected : Bool
  deriving DecidableEq, Repr

/-- State of a ListLayout: the ordered entries, the standby cursor and the
auto-continue flag. The cursor is a natural number in [0, N]; the value N
(one past the end) encodes the NONE / nothing-on-standby sentinel, which
is also the only possible value when N = 0. -/
structure LayoutState where
  entries : List Entry
  cursor : Nat
  autoContinue : Bool
  deriving DecidableEq, Repr

/-- Action kinds passed to cue execution; `dflt` stands for CueAction.Default. -/
inductive CueAction
  | dflt
  | start
  | stop
  deriving DecidableEq, Repr

/-- Python exception kinds relevant to this core. -/
inductive PyError
  | indexError
  | keyError
  | attributeError
  deriving DecidableEq, Repr

/-- Modelled from the spec: section 4.1, `item(index)` fails with IndexError
when the index is out of [0, N); the list-model class itself is not among
the core sources. The index arrives as a Python integer. -/
def listModelItem (entries : List Entry) (i : Int) : Except PyError Cue :=
  if 0 ≤ i ∧ i < (entries.length : Int) then
    match entries.get? i.toNat with
    | some e => Except.ok e.cue
    | none => Except.error PyError.indexError
  else
    Except.error PyError.indexError

/-- Modelled from the spec: `standby_index` reads the cursor held by the
list view (view code not among the core sources). -/
def standby_index (s : LayoutState) : Nat :=
  s.cursor

/-- Modelled from the spec: section 4.2, `set(index)` clamps silently to
[0, N]; the view code holding this logic is not among the core sources. -/
def set_standby_index (s : LayoutState) (index : Int) : LayoutState :=
  { s with cursor := (min (max index 0) (s.entries.length : Int)).toNat }

/-- Modelled from the spec: the standby cue is read via the cursor; when the
cursor is at the NONE position (N) or the collection is empty there is no
standby cue. -/
def standby_cue (s : LayoutState) : Option Cue :=
  (s.entries.get? s.cursor).map (·.cue)

/-- Result of a call to `go`: the new state, the cues executed (with their
action), and the cues carried by emitted cue-executed notifications. -/
structure GoResult where
  state : LayoutState
  executed : List (Cue × CueAction)
  emitted : List Cue
  deriving DecidableEq, Repr

/-- Source `ListLayout.go` (layout.py): read the standby cue; when present, execute
it with the given action, emit cue_executed with it, and when auto-continue
is enabled set the standby index to the current index plus `advance`. -/
def go (s : LayoutState) (action : CueAction) (advance : Int) : GoResult :=
  match standby_cue s with
  | none => ⟨s, [], []⟩
  | some c =>
      let s' :=
        if s.autoContinue then
          set_standby_index s ((standby_index s : Int) + advance)
        else s
      ⟨s', [(c, action)], [c]⟩

/-- Modelled from the spec: section 6 lists the Cue attributes this core
consumes as `index`, `execute(action)` and the `next` completion signal;
the Cue class lives outside the given sources and exposes no attribute
named `cue`, so the lookup performed by `next_cue.cue` in the handler
raises AttributeError. The result type is Cue so that the never-reached
continuation of the handler can still be written down. -/
def cue_attribute_cue (_c : Cue) : Except PyError Cue :=
  Except.error PyError.attributeError

/-- Body of `ListLayout.__cue_next` (layout.py), the chain-reaction handler,
before the surrounding try/except: compute `next_index = cue.index + 1`;
when it is below the model length, fetch the item, evaluate
`next_cue.cue` and execute the result, then, when auto-continue is on and
the fetched cue is the standby cue, set the standby index to
`next_index + 1`. -/
def cueNextBody (s : LayoutState) (cueIndex : Int) :
    Except PyError (LayoutState × List (Cue × CueAction)) :=
  if cueIndex + 1 < (s.entries.length : Int) then
    match listModelItem s.entries (cueIndex + 1) with
    | Except.error e => Except.error e
    | Except.ok next_cue =>
        match cue_attribute_cue next_cue with
        | Except.error e => Except.error e
        | Except.ok target =>
            Except.ok
              (if s.autoContinue = true ∧ some next_cue = standby_cue s then
                set_standby_index s (cueIndex + 1 + 1)
              else s,
              [(target, CueAction.dflt)])
  else
    Except.ok (s, [])

/-- Source `ListLayout.__cue_next` (layout.py) with its try/except: IndexError and
KeyError are swallowed (the handler then does nothing); any other
exception propagates to the notification dispatcher. -/
def cueNext (s : LayoutState) (cueIndex : Int) :
    Except PyError (LayoutState × List (Cue × CueAction)) :=
  match cueNextBody s cueIndex with
  | Except.error PyError.indexError => Except.ok (s, [])
  | Except.error PyError.keyError => Except.ok (s, [])
  | r => r

/-- Modelled from the spec: the view-side selected items, as index/item
pairs in collection order; the view class is not among the core sources.
The index recorded with each item is what `indexOfTopLevelItem` returns. -/
def selectedItemsFrom : List Entry → Nat → List (Nat × Entry)
  | [], _ => []
  | e :: tl, i =>
      if e.selected then (i, e) :: selectedItemsFrom tl (i + 1)
      else selectedItemsFrom tl (i + 1)

/-- Selected view items of the whole list, in collection order. -/
def selectedItems (entries : List Entry) : List (Nat × Entry) :=
  selectedItemsFrom entries 0

/-- Source `ListLayout.selected_cues` (layout.py): for each selected view item,
yield the model item at `indexOfTopLevelItem(item)`. The `cue_type`
parameter is accepted, as in the source, and is not used. -/
def selected_cues (s : LayoutState) (cue_type : CueType) : List Cue :=
  (selectedItems s.entries).filterMap
    (fun p => (s.entries.get? p.1).map (·.cue))

/-- Predicate `isinstance` over the closed cue-type set: every type is an instance
of the root `base`, and of itself. -/
def instanceOf (t target : CueType) : Bool :=
  decide (target = CueType.base ∨ t = target)

/-- Selected cues as the specification words them, for comparison with the
source definition: the current selection in collection order, filtered by
subtype. -/
def selected_cues_spec (s : LayoutState) (cue_type : CueType) : List Cue :=
  ((s.entries.filter
      (fun e => e.selected && instanceOf e.cue.type cue_type)).map (·.cue))

/-- Modelled from the spec: bulk edit computes the most specific common
supertype of the selected cues over the closed cue-type set; the helper
function lives outside the given sources. -/
def greatest_common_superclass (cues : List Cue) : CueType :=
  match cues with
  | [] => CueType.base
  | c :: rest =>
      if rest.all (fun d => decide (d.type = c.type)) then c.type
      else CueType.base

/-- Observable outcome of `edit_selected_cues`: the cue class the settings
dialog is opened with, when one is opened at all, and the target list of
the multi-configure transaction that an apply would submit. -/
structure EditResult where
  dialog : Option CueType
  transaction : Option (List Cue)
  deriving DecidableEq, Repr

/-- Source `CueLayout.edit_selected_cues` (cue_layout.py): fetch the selected cues;
when the list is non-empty, open the settings dialog on their greatest
common superclass and wire an apply to a MultiConfigureAction over them;
when it is empty, do nothing. -/
def edit_selected_cues (s : LayoutState) : EditResult :=
  let cues := selected_cues s CueType.base
  if cues.isEmpty then ⟨none, none⟩
  else ⟨some ( greatest_common_superclass cues), some cues⟩

/-- In-place update of the view item at one index, as `topLevelItem(index)`
followed by a setter; indices outside the list leave it unchanged. -/
def modifyAt : List Entry → Nat → (Entry → Entry) → List Entry
  | [], _, _ => []
  | e :: tl, 0, f => f e :: tl
  | e :: tl, n + 1, f => e :: modifyAt tl n f

/-- The per-item body of `invert_selection`:
`item.setSelected(not item.isSelected())`. -/
def flipEntry (e : Entry) : Entry :=
  { e with selected := !e.selected }

/-- The loop of `invert_selection`: for every index in range, flip the
selected flag of the item at that index. -/
def invertLoop (es : List Entry) : List Entry :=
  (List.range es.length).foldl (fun l i => modifyAt l i flipEntry) es

/-- Source `ListLayout.invert_selection` (layout.py): loop over every top-level
index and flip the selected flag of the item there. -/
def invert_selection (s : LayoutState) : LayoutState :=
  { s with entries := invertLoop s.entries }

/-- Modelled from the spec: section 4.1 insert reindexes the sequence; as
with a Python list insert, a position past the end appends. -/
def insertEntry : List Entry → Nat → Entry → List Entry
  | es, 0, e => e :: es
  | [], _ + 1, e => [e]
  | x :: xs, n + 1, e => x :: insertEntry xs n e

/-- Insert a cue into the collection at a position; the cursor is not
moved (inserting can only grow the collection). -/
def insertCue (s : LayoutState) (c : Cue) (pos : Nat) : LayoutState :=
  { s with entries := insertEntry s.entries pos ⟨c, false⟩ }

/-- Modelled from the spec: section 4.1 remove reindexes and section 4.2
clamps the cursor to the new length when the collection shrinks below it. -/
def removeCue (s : LayoutState) (cid : Nat) : LayoutState :=
  let entries := s.entries.filter (fun e => decide (e.cue.id ≠ cid))
  { s with entries := entries, cursor := min s.cursor entries.length }

/-- The structural operations and cursor mutations a session can perform:
insert, remove, explicit navigation, go, and a chain-reaction delivery. -/
inductive LayoutOp
  | insert (c : Cue) (pos : Nat)
  | remove (cid : Nat)
  | navigate (i : Int)
  | goStep (action : CueAction) (advance : Int)
  | chain (i : Int)

/-- Apply one operation to the layout state; a chain delivery that raises
leaves the state as it was. -/
def applyOp (s : LayoutState) : LayoutOp → LayoutState
  | .insert c pos => insertCue s c pos
  | .remove cid => removeCue s cid
  | .navigate i => set_standby_index s i
  | .goStep a adv => (go s a adv).state
  | .chain i =>
      match cueNext s i with
      | Except.ok (s', _) => s'
      | Except.error _ => s

/-- Run a sequence of operations left to right. -/
def runOps (s : LayoutState) (ops : List LayoutOp) : LayoutState :=
  ops.foldl applyOp s

/-- The standby-cursor range invariant: 0 ≤ cursor ≤ N. -/
def cursorInv (s : LayoutState) : Prop :=
  s.cursor ≤ s.entries.length

/-- Example cues A, B, C of the worked examples. -/
def cueA : Cue := ⟨1, CueType.media⟩

def cueB : Cue := ⟨2, CueType.media⟩

def cueC : Cue := ⟨3, CueType.light⟩

/-- Collection [A, B, C], cursor 0, auto-continue on, nothing selected. -/
def exGoState : LayoutState :=
  ⟨[⟨cueA, false⟩, ⟨cueB, false⟩, ⟨cueC, false⟩], 0, true⟩

/-- Collection [A, B, C], cursor 0, auto-continue off. -/
def exGoStateNoAuto : LayoutState :=
  ⟨[⟨cueA, false⟩, ⟨cueB, false⟩, ⟨cueC, false⟩], 0, false⟩

/-- Collection [A, B, C], cursor 1 (standby = B), auto-continue on: the
chain-reaction worked example. -/
def exChainState : LayoutState :=
  ⟨[⟨cueA, false⟩, ⟨cueB, false⟩, ⟨cueC, false⟩], 1, true⟩

/-- Collection [B, C] after A was removed; a queued completion notification
from stale A (stale index 0) is still to be handled. -/
def exStaleState : LayoutState :=
  ⟨[⟨cueB, false⟩, ⟨cueC, false⟩], 0, true⟩

/-- One selected light cue, used against a media subtype filter. -/
def exSelState : LayoutState :=
  ⟨[⟨cueC, true⟩], 0, true⟩

/-- A non-empty collection with nothing selected. -/
def exUnselState : LayoutState :=
  ⟨[⟨cueA, false⟩, ⟨cueB, false⟩], 0, true⟩

/-- The empty layout. -/
def exEmptyState : LayoutState :=
  ⟨[], 0, true⟩

/-- An operation sequence exercising every kind of mutation. -/
def exOps : List LayoutOp :=
  [LayoutOp.insert cueA 0, LayoutOp.insert cueB 5, LayoutOp.insert cueC 1,
   LayoutOp.navigate 99, LayoutOp.goStep CueAction.dflt 1,
   LayoutOp.chain 0, LayoutOp.remove 2, LayoutOp.navigate (-4),
   LayoutOp.goStep CueAction.start 2, LayoutOp.remove 1]

/-! ## Helper lemmas -/

theorem set_standby_index_cursorInv (s : LayoutState) (i : Int) :
    cursorInv (set_standby_index s i) := by
  unfold cursorInv set_standby_index
  exact Int.toNat_le.mpr (min_le_right _ _)

theorem set_standby_index_cursor_of_le (s : LayoutState) (i : Int)
    (h0 : 0 ≤ i) (h1 : i ≤ (s.entries.length : Int)) :
    ((set_standby_index s i).cursor : Int) = i := by
  unfold set_standby_index
  simp only
  omega

theorem standby_cue_none_of_oob (s : LayoutState)
    (h : s.entries.length ≤ s.cursor) : standby_cue s = none := by
  unfold standby_cue
  rw [List.get?_eq_none.mpr h]
  rfl

/-! ## C1 and C2: the go protocol -/

/-- C1: when a standby cue exists, `go(action, advance)` executes it with
the given action, emits exactly one cue-executed notification carrying it,
and the cursor moves to the clamped value of cursor + advance exactly when
auto-continue is enabled, remaining (with the whole state) unchanged when
auto-continue is disabled. Within bounds the move is exactly by `advance`. -/
theorem go_executes_standby (s : LayoutState) (c : Cue) (action : CueAction)
    (advance : Int) (h : standby_cue s = some c) :
    (go s action advance).executed = [(c, action)] ∧
    (go s action advance).emitted = [c] ∧
    (s.autoContinue = true →
      (go s action advance).state =
        set_standby_index s ((s.cursor : Int) + advance)) ∧
    (s.autoContinue = true → 0 ≤ (s.cursor : Int) + advance →
      (s.cursor : Int) + advance ≤ (s.entries.length : Int) →
      ((go s action advance).state.cursor : Int) = (s.cursor : Int) + advance) ∧
    (s.autoContinue = false → (go s action advance).state = s) := by
  unfold go
  rw [h]
  refine ⟨rfl, rfl, ?_, ?_, ?_⟩
  · intro ha
    simp [ha, standby_index]
  · intro ha h0 h1
    simp only [ha, if_true, standby_index]
    exact set_standby_index_cursor_of_le s _ h0 h1
  · intro ha
    simp [ha]

/-- C1 witness: on [A, B, C] with cursor 0 and advance 1, `go` executes A,
emits executed(A), and the cursor becomes 1 with auto-continue on and
stays 0 with auto-continue off. -/
theorem go_executes_standby_witness :
    (go exGoState CueAction.dflt 1).executed = [(cueA, CueAction.dflt)] ∧
    (go exGoState CueAction.dflt 1).emitted = [cueA] ∧
    (go exGoState CueAction.dflt 1).state.cursor = 1 ∧
    (go exGoStateNoAuto CueAction.dflt 1).state.cursor = 0 := by
  have h1 := go_executes_standby exGoState cueA CueAction.dflt 1 rfl
  have h2 := go_executes_standby exGoStateNoAuto cueA CueAction.dflt 1 rfl
  refine ⟨h1.1, h1.2.1, ?_, ?_⟩
  · have h3 := h1.2.2.2.1 rfl (by decide) (by decide)
    have hc : exGoState.cursor = 0 := rfl
    rw [hc] at h3
    omega
  · rw [h2.2.2.2.2 rfl]
    rfl

/-- C2: when the collection is empty or the cursor is at the NONE position,
`go` is a no-op: no cue executed, nothing emitted, state unchanged. -/
theorem go_noop_without_standby (s : LayoutState) (action : CueAction)
    (advance : Int) (h : s.entries = [] ∨ s.entries.length ≤ s.cursor) :
    go s action advance = ⟨s, [], []⟩ := by
  have hn : standby_cue s = none := by
    apply standby_cue_none_of_oob
    rcases h with h | h
    · simp [h]
    · exact h
  unfold go
  rw [hn]

/-- C2 witness: `go` on the empty layout does nothing. -/
theorem go_noop_without_standby_witness :
    go exEmptyState CueAction.dflt 1 = ⟨exEmptyState, [], []⟩ :=
  go_noop_without_standby exEmptyState CueAction.dflt 1 (Or.inl rfl)

/-! ## C3, C4, C5: the chain-reaction handler -/

theorem listModelItem_ok_of_in_range (es : List Entry) (i : Int)
    (h0 : 0 ≤ i) (h1 : i < (es.length : Int)) :
    ∃ c, listModelItem es i = Except.ok c := by
  unfold listModelItem
  rw [if_pos ⟨h0, h1⟩]
  cases hg : es.get? i.toNat with
  | some e => exact ⟨e.cue, rfl⟩
  | none =>
      have := List.get?_eq_none.mp hg
      omega

theorem listModelItem_cases (es : List Entry) (i : Int) :
    (∃ c, listModelItem es i = Except.ok c) ∨
    listModelItem es i = Except.error PyError.indexError := by
  unfold listModelItem
  split
  · cases hg : es.get? i.toNat with
    | some e => exact Or.inl ⟨e.cue, rfl⟩
    | none => exact Or.inr rfl
  · exact Or.inr rfl

theorem cueNextBody_cases (s : LayoutState) (i : Int) :
    cueNextBody s i = Except.ok (s, []) ∨
    cueNextBody s i = Except.error PyError.indexError ∨
    cueNextBody s i = Except.error PyError.attributeError := by
  unfold cueNextBody
  split
  · rcases listModelItem_cases s.entries (i + 1) with ⟨c, hc⟩ | hc
    · rw [hc]
      exact Or.inr (Or.inr rfl)
    · rw [hc]
      exact Or.inr (Or.inl rfl)
  · exact Or.inl rfl

theorem cueNext_cases (s : LayoutState) (i : Int) :
    cueNext s i = Except.ok (s, []) ∨
    cueNext s i = Except.error PyError.attributeError := by
  unfold cueNext
  rcases cueNextBody_cases s i with h | h | h <;> rw [h]
  · exact Or.inl rfl
  · exact Or.inl rfl
  · exact Or.inr rfl

/-- C3: the claim states the handler executes the in-bounds next cue; the
code instead evaluates `next_cue.cue` on the fetched Cue, an attribute the
Cue entity does not have, so for every delivery whose next index is in
bounds the handler raises AttributeError, executes nothing, and the
uncaught exception escapes the except clause, which names only IndexError
and KeyError. -/
theorem chain_reaction_raises_attribute_error (s : LayoutState) (i : Int)
    (h0 : 0 ≤ i) (h1 : i + 1 < (s.entries.length : Int)) :
    cueNext s i = Except.error PyError.attributeError := by
  rcases listModelItem_ok_of_in_range s.entries (i + 1) (by omega) h1 with ⟨c, hc⟩
  have hb : cueNextBody s i = Except.error PyError.attributeError := by
    unfold cueNextBody
    rw [if_pos h1, hc]
    rfl
  unfold cueNext
  rw [hb]

/-- C3 witness: on [A, B, C], a completion delivered from index 0 makes the
handler raise AttributeError instead of executing B. -/
theorem chain_reaction_raises_attribute_error_witness :
    (0 : Int) ≤ 0 ∧ (0 : Int) + 1 < (exGoState.entries.length : Int) ∧
    cueNext exGoState 0 = Except.error PyError.attributeError :=
  ⟨le_refl 0, by decide,
    chain_reaction_raises_attribute_error exGoState 0 (le_refl 0) (by decide)⟩

/-- C4: a completion notification from stale cue A, already removed from
[A, B, C], is handled against the shrunk collection [B, C]: with stale
index 0 the next index 1 is still in bounds, the item is fetched, and the
`next_cue.cue` access raises AttributeError, which the except clause does
not catch, so an exception does escape to the notification dispatcher,
against the claim. The IndexError path itself is swallowed as claimed: a
stale negative index makes the item lookup fail and the handler returns
quietly with the state untouched. -/
theorem chain_stale_cue_exception_escapes :
    cueNext exStaleState 0 = Except.error PyError.attributeError ∧
    cueNext exStaleState (-7) = Except.ok (exStaleState, []) := by
  constructor <;> rfl

/-- C5 counterexample: on [A, B, C] with cursor 1 and auto-continue on, the
delivery of the completion of B (index 1) does not return normally with C
executed and the cursor advanced to 3: the handler raises. -/
theorem chain_example_claim_false :
    ¬ ∃ s' tr, cueNext exChainState 1 = Except.ok (s', tr) ∧
        s'.cursor = 3 := by
  rintro ⟨s', tr, h, -⟩
  rw [show cueNext exChainState 1 = Except.error PyError.attributeError
    from rfl] at h
  exact Except.noConfusion h

/-- C5 amended: in that scenario the handler raises AttributeError from the
`next_cue.cue` access before any execution; nothing is executed and the
layout state, cursor included, stays exactly as it was (cursor 1). -/
theorem chain_example_actual_behavior :
    cueNext exChainState 1 = Except.error PyError.attributeError ∧
    applyOp exChainState (LayoutOp.chain 1) = exChainState ∧
    (applyOp exChainState (LayoutOp.chain 1)).cursor = 1 := by
  refine ⟨rfl, rfl, rfl⟩

/-! ## C6: the cursor range invariant -/

theorem insertEntry_length (es : List Entry) (n : Nat) (e : Entry) :
    (insertEntry es n e).length = es.length + 1 := by
  induction es generalizing n with
  | nil => cases n <;> rfl
  | cons x xs ih =>
      cases n with
      | zero => rfl
      | succ m => simp [insertEntry, ih]

theorem applyOp_cursorInv (s : LayoutState) (op : LayoutOp)
    (h : cursorInv s) : cursorInv (applyOp s op) := by
  cases op with
  | insert c pos =>
      unfold cursorInv applyOp insertCue at *
      simp only [insertEntry_length]
      omega
  | remove cid =>
      unfold cursorInv applyOp removeCue at *
      simp only
      exact min_le_right _ _
  | navigate i => exact set_standby_index_cursorInv s i
  | goStep a adv =>
      unfold applyOp go
      cases hs : standby_cue s with
      | none => exact h
      | some c =>
          simp only
          split
          · exact set_standby_index_cursorInv s _
          · exact h
  | chain i =>
      rcases cueNext_cases s i with hc | hc <;>
        simp only [applyOp, hc] <;> exact h

/-- C6: from any state satisfying the cursor range invariant (in particular
the initial state with cursor 0), every sequence of inserts, removes,
navigations, go calls and chain-reaction deliveries leaves the cursor in
[0, N]; when the collection has become empty the cursor is exactly 0, the
value encoding the NONE sentinel. Out-of-range requests and shrinks are
clamped, never an error. -/
theorem runOps_cursor_invariant (s : LayoutState) (ops : List LayoutOp)
    (h : cursorInv s) :
    cursorInv (runOps s ops) ∧
    ((runOps s ops).entries = [] → (runOps s ops).cursor = 0) := by
  have main : cursorInv (runOps s ops) := by
    unfold runOps
    induction ops generalizing s with
    | nil => exact h
    | cons op tl ih => exact ih _ (applyOp_cursorInv s op h)
  refine ⟨main, fun he => ?_⟩
  have h2 := main
  unfold cursorInv at h2
  rw [he] at h2
  simpa using h2

/-- C6 witness: starting from the empty layout, a mixed sequence of
inserts, removes, navigations, go calls and chain deliveries keeps the
cursor within range. -/
theorem runOps_cursor_invariant_witness :
    cursorInv exEmptyState ∧ cursorInv (runOps exEmptyState exOps) :=
  ⟨Nat.le_refl 0,
    (runOps_cursor_invariant exEmptyState exOps (Nat.le_refl 0)).1⟩

/-! ## C7: selected_cues and the subtype argument -/

theorem selectedItemsFrom_shift (es : List Entry) (k : Nat) :
    selectedItemsFrom es (k + 1)
      = (selectedItemsFrom es k).map (fun p => (p.1 + 1, p.2)) := by
  induction es generalizing k with
  | nil => rfl
  | cons e tl ih =>
      unfold selectedItemsFrom
      cases he : e.selected with
      | true => simp [ih (k + 1)]
      | false => simp [ih (k + 1)]

theorem selected_cues_eq_filter (es : List Entry) :
    (selectedItemsFrom es 0).filterMap
        (fun p => (es.get? p.1).map (·.cue))
      = (es.filter (·.selected)).map (·.cue) := by
  induction es with
  | nil => rfl
  | cons e tl ih =>
      have htail :
          ((selectedItemsFrom tl 0).map (fun p => (p.1 + 1, p.2))).filterMap
              (fun p => ((e :: tl).get? p.1).map (·.cue))
            = (tl.filter (·.selected)).map (·.cue) := by
        rw [List.filterMap_map]
        have hfun :
            ((fun p : Nat × Entry => ((e :: tl).get? p.1).map (·.cue)) ∘
                (fun p : Nat × Entry => (p.1 + 1, p.2)))
              = fun p : Nat × Entry => (tl.get? p.1).map (·.cue) := by
          funext p
          simp [Function.comp]
        rw [hfun, ih]
      unfold selectedItemsFrom
      cases he : e.selected with
      | true =>
          rw [if_pos rfl, selectedItemsFrom_shift tl 0, List.filterMap_cons]
          simp only [List.get?, Option.map_some]
          rw [htail]
          simp [List.filter_cons, he]
      | false =>
          rw [if_neg (by simp [he]), selectedItemsFrom_shift tl 0, htail]
          simp [List.filter_cons, he]

/-- C7 counterexample: one selected light cue against the media subtype
filter: the source function still yields it, while the claimed filtered
sequence is empty. -/
theorem selected_cues_filter_claim_false :
    selected_cues exSelState CueType.media
      ≠ selected_cues_spec exSelState CueType.media := by
  decide

/-- C7 amended: `selected_cues(S)` yields the currently selected cues in
collection order but ignores the subtype argument entirely: for every
state and every subtype it coincides with the unfiltered selection, the
spec sequence taken at the root type. Being a function of the live state,
re-evaluating it after a mutation reflects that mutation. -/
theorem selected_cues_ignores_subtype (s : LayoutState) (t : CueType) :
    selected_cues s t = selected_cues_spec s CueType.base := by
  unfold selected_cues selected_cues_spec selectedItems
  rw [selected_cues_eq_filter]
  have hfilter :
      s.entries.filter (·.selected)
        = s.entries.filter
            (fun e => e.selected && instanceOf e.cue.type CueType.base) := by
    apply List.filter_congr
    intro e _
    simp [instanceOf]
  rw [hfilter]

/-! ## C8 and C10: invert_selection -/

theorem modifyAt_of_length_le (es : List Entry) (n : Nat) (f : Entry → Entry)
    (h : es.length ≤ n) : modifyAt es n f = es := by
  induction es generalizing n with
  | nil => rfl
  | cons e tl ih =>
      cases n with
      | zero => simp at h
      | succ m =>
          unfold modifyAt
          rw [ih m (by simpa using h)]

theorem modifyAt_append (a : List Entry) (e : Entry) (b : List Entry)
    (f : Entry → Entry) (n : Nat) (h : a.length = n) :
    modifyAt (a ++ e :: b) n f = a ++ f e :: b := by
  induction a generalizing n with
  | nil =>
      subst h
      rfl
  | cons x xs ih =>
      subst h
      unfold modifyAt
      simp only [List.cons_append, List.length_cons]
      rw [ih xs.length rfl]

theorem invertLoop_gen (l : List Entry) (n : Nat) :
    (List.range n).foldl (fun es i => modifyAt es i flipEntry) l
      = (l.take n).map flipEntry ++ l.drop n := by
  induction n with
  | zero => simp
  | succ m ih =>
      rw [List.range_succ, List.foldl_append, ih]
      simp only [List.foldl_cons, List.foldl_nil]
      by_cases hm : m < l.length
      · have hdrop := List.drop_eq_getElem_cons hm
        rw [hdrop]
        rw [modifyAt_append _ _ _ _ m
          (by simp [List.length_take, Nat.min_eq_left (Nat.le_of_lt hm)])]
        rw [List.take_succ]
        have hsome : l[m]? = some l[m] := List.getElem?_eq_getElem hm
        rw [hsome]
        rw [List.map_append, List.append_assoc]
        rfl
      · have hle : l.length ≤ m := Nat.le_of_not_lt hm
        rw [List.take_of_length_le hle, List.drop_eq_nil_of_le hle,
          List.take_of_length_le (Nat.le_succ_of_le hle),
          List.drop_eq_nil_of_le (Nat.le_succ_of_le hle),
          List.append_nil]
        exact modifyAt_of_length_le _ m _ (by simpa using hle)

theorem invertLoop_eq_map (es : List Entry) :
    invertLoop es = es.map flipEntry := by
  unfold invertLoop
  rw [invertLoop_gen, List.take_length, List.drop_length, List.append_nil]

theorem invert_selection_eq (s : LayoutState) :
    invert_selection s = { s with entries := s.entries.map flipEntry } := by
  unfold invert_selection
  rw [invertLoop_eq_map]

theorem flipEntry_flipEntry (e : Entry) : flipEntry (flipEntry e) = e := by
  simp [flipEntry]

/-- C8: `invert_selection` flips the selected flag of the item at every
index, keeps the cue there and the cursor untouched, and involves no
subtype condition: the statement holds for entries of any cue type. -/
theorem invert_selection_flips_every_item (s : LayoutState) (i : Nat) :
    (invert_selection s).entries.get? i
        = (s.entries.get? i).map flipEntry ∧
    (invert_selection s).cursor = s.cursor := by
  rw [invert_selection_eq]
  exact ⟨List.get?_map flipEntry s.entries i, rfl⟩

/-- C10: inverting the selection twice with nothing in between restores
every item, and with it the whole layout state. -/
theorem invert_selection_involutive (s : LayoutState) :
    invert_selection (invert_selection s) = s := by
  rw [invert_selection_eq, invert_selection_eq]
  have hmap : (s.entries.map flipEntry).map flipEntry = s.entries := by
    rw [List.map_map]
    have hid : flipEntry ∘ flipEntry = id := funext flipEntry_flipEntry
    rw [hid, List.map_id]
  simp only [hmap]

/-! ## C9: bulk edit on an empty selection -/

/-- C9: when no cue is selected, `edit_selected_cues` opens no settings
dialog and submits no multi-configure transaction; the guard makes the
call return before either is constructed, so no failure can arise. -/
theorem edit_selected_cues_empty_noop (s : LayoutState)
    (h : ∀ e ∈ s.entries, e.selected = false) :
    edit_selected_cues s = ⟨none, none⟩ := by
  have hsel : selected_cues s CueType.base = [] := by
    unfold selected_cues selectedItems
    rw [selected_cues_eq_filter]
    rw [List.filter_eq_nil.mpr (fun e he => by simp [h e he])]
    rfl
  unfold edit_selected_cues
  rw [hsel]
  rfl

/-- C9 witness: on a non-empty collection with nothing selected, the bulk
edit is a no-op. -/
theorem edit_selected_cues_empty_noop_witness :
    edit_selected_cues exUnselState = ⟨none, none⟩ :=
  edit_selected_cues_empty_noop exUnselState (by decide)

end Lisp
